import Mathlib

/-!
Verification development for the ngalert alert-evaluation scheduler core.

The repository snapshot contains the test file (TestWarmStateCache,
TestAlertingTicker) but not the scheduler and state-tracker implementation
itself, so the operational definitions below are modelled from the
specification (spec.md sections 3, 4.2, 4.3, 4.4) and are validated against
the concrete multi-tick trace asserted by TestAlertingTicker and the
expected cache entries asserted by TestWarmStateCache.
-/

/-- Modelled from the spec: an alert definition as seen by the scheduler
(section 3). The missing source is the AlertDefinition model of the ngalert
models package; only the fields the scheduler consumes are kept: the
evaluation interval in base-interval units (0 means never scheduled) and the
paused flag. -/
structure AlertDef where
  interval : Nat
  paused : Bool
deriving DecidableEq

/-- A store snapshot: the list of definitions the per-tick reconciliation
reads, as pairs of a definition key and its attributes. Keys are numbered as
in the test (alerts[0], alerts[1], alerts[2]). -/
abbrev DefStore := List (Nat × AlertDef)

/-- Modelled from the spec: a definition receives a running dispatcher iff it
is not paused and its interval is nonzero (sections 4.2 and 4.3; the missing
source is the reconciliation step of the scheduler Ticker). -/
def shouldRun (d : AlertDef) : Bool :=
  !d.paused && !(d.interval == 0)

/-- Modelled from the spec: the set of dispatcher control handles the
reconciliation step wants active for a given store snapshot, each carrying
the interval of its definition (section 4.2, step 2). -/
def desired (st : DefStore) : List (Nat × Nat) :=
  (st.filter (fun kd => shouldRun kd.2)).map (fun kd => (kd.1, kd.2.interval))

/-- Modelled from the spec: the keys evaluated at base tick N, for the store
snapshot read at that tick. A definition is evaluated iff it should run and
the absolute tick number N is a multiple of its interval, as fixed by the
trace TestAlertingTicker asserts (the missing source is the tick fan-out of
the scheduler Ticker). -/
def evalKeysAt (s : Nat → DefStore) (N : Nat) : List Nat :=
  ((s N).filter (fun kd => shouldRun kd.2 && (N % kd.2.interval == 0))).map
    (fun kd => kd.1)

/-- Modelled from the spec: the registry of active dispatcher handles after
the reconciliation of tick N; the Ticker starts with an empty registry and
after each tick the registry matches the desired set (section 4.2). -/
def registryAfter (s : Nat → DefStore) : Nat → List (Nat × Nat)
  | 0 => []
  | N + 1 => desired (s (N + 1))

/-- Boolean membership of a handle in a handle list, keyed on both the
definition key and the interval. -/
def handleMem (h : Nat × Nat) (l : List (Nat × Nat)) : Bool :=
  l.any (fun x => x.1 == h.1 && x.2 == h.2)

/-- Modelled from the spec: the keys whose handles are signal-stopped at tick
N, producing one StopApplied observer call each: the handles active after the
previous tick that are no longer desired, because the definition was removed,
paused, its interval set to 0, or its interval changed (section 4.2, step 2;
the missing source is the reconciliation step of the scheduler Ticker). -/
def stopsAt (s : Nat → DefStore) : Nat → List Nat
  | 0 => []
  | M + 1 =>
    ((registryAfter s M).filter
      (fun h => !(handleMem h (desired (s (M + 1)))))).map (fun h => h.1)

/-- Modelled from the spec: the now timestamp a dispatcher evaluates with and
reports to the EvalApplied observer is the timestamp carried by the tick, not
the clock reading at the moment evaluation code executes (section 4.2,
scheduling rule; the missing source is the evaluation loop of the scheduler).
The first argument is the tick timestamp, the second the wall clock at
execution time, which is discarded. -/
def dispatchNow (tickTs _execClock : Nat) : Nat :=
  tickTs

/-- Modelled from the spec: the EvalApplied observer events of tick N, as
pairs of a key and the now timestamp passed to the observer. The base
interval is in seconds, so tick N carries timestamp base * N; the delay
function gives how far the wall clock has moved past the tick when the
evaluation of each key actually executes. -/
def evalEventsAt (base : Nat) (delay : Nat → Nat → Nat) (s : Nat → DefStore)
    (N : Nat) : List (Nat × Nat) :=
  (evalKeysAt s N).map (fun k => (k, dispatchNow (base * N) (base * N + delay k N)))

/-- The store timeline of TestAlertingTicker: key 0 starts with interval 0 and
is changed to interval 3 after tick 1; key 1 has interval 1 and is deleted
after tick 4; key 2 is created with interval 1 after tick 6, paused after
tick 7 and unpaused after tick 8. The value at N is the snapshot the
reconciliation of tick N reads. -/
def testStore (N : Nat) : DefStore :=
  if N = 0 then []
  else if N = 1 then [(0, ⟨0, false⟩), (1, ⟨1, false⟩)]
  else if N ≤ 4 then [(0, ⟨3, false⟩), (1, ⟨1, false⟩)]
  else if N ≤ 6 then [(0, ⟨3, false⟩)]
  else if N = 8 then [(0, ⟨3, false⟩), (2, ⟨1, true⟩)]
  else [(0, ⟨3, false⟩), (2, ⟨1, false⟩)]

/-- The categorical result vocabulary of the evaluation engine, as used by the
test via the eval package (eval.Normal, eval.Alerting) and named by the spec
(section 3: Normal/Alerting/Error/NoData). -/
inductive EvalState
  | Normal
  | Alerting
  | Error
  | NoData
deriving DecidableEq

/-- One entry of the evaluation history of an alert state, mirroring
state.StateEvaluation from the test file: a timestamp and the resulting
state. Timestamps are seconds. -/
structure StateEvaluation where
  EvaluationTime : Nat
  EvaluationState : EvalState
deriving DecidableEq

/-- One alert state row, mirroring state.AlertState as the test file builds
it: identity fields, labels, current categorical state, evaluation history,
StartsAt, EndsAt and LastEvaluationTime. -/
structure AlertState where
  UID : String
  OrgID : Nat
  CacheId : String
  Labels : List (String × String)
  State : EvalState
  Results : List StateEvaluation
  StartsAt : Nat
  EndsAt : Nat
  LastEvaluationTime : Nat
deriving DecidableEq

/-- The zero value of AlertState, which a Go map read yields for an absent
key. -/
def emptyAlertState : AlertState :=
  { UID := "", OrgID := 0, CacheId := "", Labels := [], State := EvalState.Normal,
    Results := [], StartsAt := 0, EndsAt := 0, LastEvaluationTime := 0 }

/-- The state tracker cache: rows keyed by CacheId. -/
abbrev StateTracker := List (String × AlertState)

/-- Modelled from the spec: the Get operation of the state tracker (section
4.4; the missing source is the ngalert state package). The call site in
TestWarmStateCache binds the result to a single value, so Get returns one
AlertState, the zero value when the key is absent. -/
def StateTracker.Get : StateTracker → String → AlertState
  | [], _ => emptyAlertState
  | p :: rest, cid => if p.1 = cid then p.2 else StateTracker.Get rest cid

/-- The persisted instance state vocabulary written by the test through
SaveAlertInstanceCommand (models.InstanceStateNormal and
models.InstanceStateFiring). -/
inductive InstanceState
  | Normal
  | Firing
deriving DecidableEq

/-- Translation of a persisted instance state to the evaluation state
vocabulary, as fixed by the expected entries of TestWarmStateCache: Normal
maps to Normal and Firing maps to Alerting. -/
def instStateToEval : InstanceState → EvalState
  | InstanceState.Normal => EvalState.Normal
  | InstanceState.Firing => EvalState.Alerting

/-- One persisted instance row, with the fields SaveAlertInstanceCommand
supplies in the test: org id, definition UID, labels, state, last evaluation
time and the current state window. -/
structure InstanceRow where
  orgID : Nat
  defUID : String
  labels : List (String × String)
  state : InstanceState
  lastEvalTime : Nat
  currentStateSince : Nat
  currentStateEnd : Nat
deriving DecidableEq

/-- Modelled from the spec: the CacheId of a row is a deterministic string
built from the definition UID plus label key=value pairs (section 3), joined
by single spaces as the expected entries of TestWarmStateCache show; labels
are taken in their stored, sorted order. -/
def cacheId (uid : String) (labels : List (String × String)) : String :=
  uid ++ " " ++ String.intercalate " " (labels.map (fun p => p.1 ++ "=" ++ p.2))

/-- The CacheId of a persisted instance row. -/
def rowCacheId (r : InstanceRow) : String :=
  cacheId r.defUID r.labels

/-- Modelled from the spec: the alert state rebuilt from one persisted row by
the warm-from-store operation, reconstructing CacheId, Labels, State, the
most recent evaluation as history, StartsAt, EndsAt and LastEvaluationTime
verbatim from storage (section 4.4; the missing source is the
WarmStateCache method of the scheduler). -/
def warmRow (r : InstanceRow) : AlertState :=
  { UID := r.defUID
    OrgID := r.orgID
    CacheId := rowCacheId r
    Labels := r.labels
    State := instStateToEval r.state
    Results := [⟨r.lastEvalTime, instStateToEval r.state⟩]
    StartsAt := r.currentStateSince
    EndsAt := r.currentStateEnd
    LastEvaluationTime := r.lastEvalTime }

/-- Modelled from the spec: WarmStateCache bulk-loads the persisted instance
rows into the tracker before any tick is processed (section 4.4). -/
def WarmStateCache (rows : List InstanceRow) : StateTracker :=
  rows.map (fun r => (rowCacheId r, warmRow r))

/-- Modelled from the spec: updating a present row on a new evaluation
(section 4.4): append to history, set the current state, set
LastEvaluationTime to the tick, recompute EndsAt as tick plus the fixed
resolve window w, and advance StartsAt only when the categorical state
changes from Normal to non-Normal. -/
def updateState (w : Nat) (a : AlertState) (v : EvalState) (tick : Nat) :
    AlertState :=
  { a with
    State := v
    Results := a.Results ++ [⟨tick, v⟩]
    LastEvaluationTime := tick
    EndsAt := tick + w
    StartsAt :=
      if a.State = EvalState.Normal ∧ v ≠ EvalState.Normal then tick
      else a.StartsAt }

/-- Modelled from the spec: the row created on the first evaluation of a
previously unseen CacheId, with StartsAt = EndsAt = tick and a one-entry
history (section 4.4). -/
def createState (cid : String) (v : EvalState) (tick : Nat) : AlertState :=
  { emptyAlertState with
    CacheId := cid
    State := v
    Results := [⟨tick, v⟩]
    StartsAt := tick
    EndsAt := tick
    LastEvaluationTime := tick }

/-- Modelled from the spec: the upsert operation of the state tracker
(section 4.4): a present row is updated in place, an absent CacheId gets a
fresh row appended; no duplicate row is ever created. -/
def StateTracker.Update (st : StateTracker) (w : Nat) (cid : String)
    (v : EvalState) (tick : Nat) : StateTracker :=
  if st.any (fun p => p.1 == cid) then
    st.map (fun p => if p.1 = cid then (p.1, updateState w p.2 v tick) else p)
  else
    st ++ [(cid, createState cid v tick)]

/-- Modelled from the spec: the Remove operation of the state tracker deletes
the row of one CacheId (section 4.4). -/
def StateTracker.Remove (st : StateTracker) (cid : String) : StateTracker :=
  st.filter (fun p => !(p.1 == cid))

/-- Folding a sequence of evaluations (verdict, tick) into one alert state
row, the per-CacheId effect of consecutive dispatcher ticks. -/
def applyRuns (w : Nat) (a : AlertState) (evs : List (EvalState × Nat)) :
    AlertState :=
  evs.foldl (fun acc e => updateState w acc e.1 e.2) a

/-- The row-level invariant of the spec (section 3): StartsAt is not after
LastEvaluationTime, which is not after EndsAt. -/
abbrev stateInv (a : AlertState) : Prop :=
  a.StartsAt ≤ a.LastEvaluationTime ∧ a.LastEvaluationTime ≤ a.EndsAt

/-- The tracker-level invariant: every row satisfies the row invariant and
CacheIds are unique, so there is at most one row per definition and label
set. -/
abbrev trackerInv (st : StateTracker) : Prop :=
  (∀ p ∈ st, stateInv p.2) ∧ (st.map (fun p => p.1)).Nodup

/-- The first persisted row of TestWarmStateCache, with the parsed evaluation
time rendered as 1000 seconds so that one minute earlier is 940 and one
minute later is 1060. -/
def testRow1 : InstanceRow :=
  { orgID := 123, defUID := "test_uid", labels := [("test1", "testValue1")],
    state := InstanceState.Normal, lastEvalTime := 1000,
    currentStateSince := 940, currentStateEnd := 1060 }

/-- The second persisted row of TestWarmStateCache. -/
def testRow2 : InstanceRow :=
  { orgID := 123, defUID := "test_uid", labels := [("test2", "testValue2")],
    state := InstanceState.Firing, lastEvalTime := 1000,
    currentStateSince := 940, currentStateEnd := 1060 }

/-- The first expected cache entry of TestWarmStateCache. -/
def expectedEntry1 : AlertState :=
  { UID := "test_uid", OrgID := 123, CacheId := "test_uid test1=testValue1",
    Labels := [("test1", "testValue1")], State := EvalState.Normal,
    Results := [⟨1000, EvalState.Normal⟩],
    StartsAt := 940, EndsAt := 1060, LastEvaluationTime := 1000 }

/-- The second expected cache entry of TestWarmStateCache. -/
def expectedEntry2 : AlertState :=
  { UID := "test_uid", OrgID := 123, CacheId := "test_uid test2=testValue2",
    Labels := [("test2", "testValue2")], State := EvalState.Alerting,
    Results := [⟨1000, EvalState.Alerting⟩],
    StartsAt := 940, EndsAt := 1060, LastEvaluationTime := 1000 }

/-- A concrete alerting row used to instantiate theorems with hypotheses. -/
def exampleAlerting : AlertState :=
  { emptyAlertState with
    CacheId := "cx", State := EvalState.Alerting,
    StartsAt := 5, EndsAt := 9, LastEvaluationTime := 7 }

/-- A concrete one-row tracker used to instantiate theorems with
hypotheses. -/
def exampleTracker : StateTracker :=
  [("cx", exampleAlerting)]

/-- A definition should run iff it is not paused and its interval is
nonzero. -/
theorem shouldRun_iff {d : AlertDef} :
    shouldRun d = true ↔ d.paused = false ∧ d.interval ≠ 0 := by
  simp [shouldRun]

/-- Membership in the evaluated keys of a tick, phrased over the store
snapshot. -/
theorem mem_evalKeysAt {s : Nat → DefStore} {N k : Nat} :
    k ∈ evalKeysAt s N ↔
      ∃ d : AlertDef, (k, d) ∈ s N ∧ shouldRun d = true ∧ N % d.interval = 0 := by
  constructor
  · intro h
    obtain ⟨⟨k2, d⟩, hkd, hk⟩ := List.mem_map.mp h
    obtain ⟨hmem, hcond⟩ := List.mem_filter.mp hkd
    rw [Bool.and_eq_true] at hcond
    cases hk
    exact ⟨d, hmem, hcond.1, by simpa using hcond.2⟩
  · intro ⟨d, hmem, hrun, hmod⟩
    exact List.mem_map.mpr
      ⟨(k, d), List.mem_filter.mpr ⟨hmem, by simp [hrun, hmod]⟩, rfl⟩

/-- Membership in the desired handle set, phrased over the store snapshot. -/
theorem mem_desired {st : DefStore} {k i : Nat} :
    (k, i) ∈ desired st ↔
      ∃ d : AlertDef, (k, d) ∈ st ∧ shouldRun d = true ∧ d.interval = i := by
  constructor
  · intro h
    obtain ⟨⟨k2, d⟩, hkd, hk⟩ := List.mem_map.mp h
    obtain ⟨hmem, hrun⟩ := List.mem_filter.mp hkd
    injection hk with h1 h2
    subst h1
    subst h2
    exact ⟨d, hmem, hrun, rfl⟩
  · intro ⟨d, hmem, hrun, hi⟩
    exact List.mem_map.mpr
      ⟨(k, d), List.mem_filter.mpr ⟨hmem, hrun⟩, by simp [hi]⟩

/-- Boolean handle membership agrees with list membership. -/
theorem handleMem_iff {h : Nat × Nat} {l : List (Nat × Nat)} :
    handleMem h l = true ↔ h ∈ l := by
  obtain ⟨a, b⟩ := h
  simp [handleMem, List.any_eq_true, Prod.ext_iff]

/-- Boolean handle membership is false exactly for non-members. -/
theorem handleMem_eq_false {h : Nat × Nat} {l : List (Nat × Nat)} :
    handleMem h l = false ↔ h ∉ l := by
  rw [← handleMem_iff]
  simp

/-- Every handle in the registry after tick N belongs to a definition of the
snapshot at N that should run and has the recorded interval. -/
theorem mem_registryAfter {s : Nat → DefStore} {N k i : Nat}
    (h : (k, i) ∈ registryAfter s N) :
    ∃ d : AlertDef, (k, d) ∈ s N ∧ shouldRun d = true ∧ d.interval = i := by
  cases N with
  | zero => cases h
  | succ M => exact mem_desired.mp h

/-- Membership in the stop signals of a tick: a key stops at tick M+1 iff a
handle of that key was active after tick M and is no longer desired. -/
theorem mem_stopsAt {s : Nat → DefStore} {M k : Nat} :
    k ∈ stopsAt s (M + 1) ↔
      ∃ i, (k, i) ∈ registryAfter s M ∧ (k, i) ∉ desired (s (M + 1)) := by
  constructor
  · intro h
    obtain ⟨⟨k2, i⟩, hx, hk⟩ := List.mem_map.mp h
    obtain ⟨hmem, hcond⟩ := List.mem_filter.mp hx
    cases hk
    exact ⟨i, hmem, handleMem_eq_false.mp (by simpa using hcond)⟩
  · intro ⟨i, hmem, hnot⟩
    exact List.mem_map.mpr
      ⟨(k, i), List.mem_filter.mpr
        ⟨hmem, by simp [handleMem_eq_false.mpr hnot]⟩, rfl⟩

/-- The test store is constant from tick 9 on (and equals the snapshot of
tick 7). -/
theorem testStore_late (N : Nat) (h : 9 ≤ N) :
    testStore N = [(0, ⟨3, false⟩), (2, ⟨1, false⟩)] := by
  unfold testStore
  rw [if_neg (by omega), if_neg (by omega), if_neg (by omega),
    if_neg (by omega), if_neg (by omega)]

/-- Get returns exactly the stored row of a present key when CacheIds are
unique. -/
theorem Get_eq_of_mem (st : StateTracker) (cid : String) (a : AlertState)
    (hnd : (st.map (fun p => p.1)).Nodup) (hmem : (cid, a) ∈ st) :
    StateTracker.Get st cid = a := by
  induction st with
  | nil => cases hmem
  | cons p rest ih =>
    rw [List.map_cons, List.nodup_cons] at hnd
    rcases List.mem_cons.mp hmem with heq | hrest
    · rw [← heq]
      simp [StateTracker.Get]
    · have hne : p.1 ≠ cid := by
        intro hp
        exact hnd.1 (hp ▸ List.mem_map.mpr ⟨(cid, a), hrest, rfl⟩)
      rw [StateTracker.Get, if_neg hne]
      exact ih hnd.2 hrest

/-- Get returns the zero value when no row carries the requested CacheId. -/
theorem Get_eq_empty (st : StateTracker) (cid : String)
    (h : ∀ p ∈ st, p.1 ≠ cid) :
    StateTracker.Get st cid = emptyAlertState := by
  induction st with
  | nil => rfl
  | cons p rest ih =>
    rw [StateTracker.Get, if_neg (h p (List.mem_cons_self p rest))]
    exact ih (fun q hq => h q (List.mem_cons_of_mem p hq))

/-- Updating a row preserves the row invariant when the tick is not earlier
than the last evaluation. -/
theorem updateState_inv (w : Nat) (a : AlertState) (v : EvalState) (tick : Nat)
    (ha : stateInv a) (ht : a.LastEvaluationTime ≤ tick) :
    stateInv (updateState w a v tick) := by
  constructor
  · show (if _ then tick else a.StartsAt) ≤ tick
    split
    · exact Nat.le_refl tick
    · exact Nat.le_trans ha.1 ht
  · exact Nat.le_add_right tick w

/-- A freshly created row satisfies the row invariant. -/
theorem createState_inv (cid : String) (v : EvalState) (tick : Nat) :
    stateInv (createState cid v tick) :=
  ⟨Nat.le_refl tick, Nat.le_refl tick⟩

/-- An in-place update keyed on one CacheId does not change the key list. -/
theorem keys_map_update (st : StateTracker) (f : AlertState → AlertState)
    (cid : String) :
    ((st.map (fun p => if p.1 = cid then (p.1, f p.2) else p)).map
      (fun p => p.1)) = st.map (fun p => p.1) := by
  induction st with
  | nil => rfl
  | cons p rest ih =>
    simp only [List.map_cons, ih, List.cons.injEq, and_true]
    split <;> rfl

/-- Folding only non-Normal evaluations into a row whose state is already
non-Normal keeps StartsAt unchanged and leaves the state non-Normal. -/
theorem applyRuns_stable (w : Nat) (evs : List (EvalState × Nat)) :
    ∀ a : AlertState, a.State ≠ EvalState.Normal →
      (∀ e ∈ evs, e.1 ≠ EvalState.Normal) →
      (applyRuns w a evs).StartsAt = a.StartsAt ∧
        (applyRuns w a evs).State ≠ EvalState.Normal := by
  induction evs with
  | nil => exact fun a ha _ => ⟨rfl, ha⟩
  | cons e rest ih =>
    intro a ha hall
    have hstep : applyRuns w a (e :: rest) =
        applyRuns w (updateState w a e.1 e.2) rest := rfl
    have hs : (updateState w a e.1 e.2).StartsAt = a.StartsAt := by
      show (if _ then e.2 else a.StartsAt) = a.StartsAt
      exact if_neg (fun hc => ha hc.1)
    have hv : (updateState w a e.1 e.2).State ≠ EvalState.Normal :=
      hall e (List.mem_cons_self e rest)
    obtain ⟨h1, h2⟩ := ih (updateState w a e.1 e.2) hv
      (fun q hq => hall q (List.mem_cons_of_mem e hq))
    exact ⟨hstep ▸ h1.trans hs, hstep ▸ h2⟩

/-- Claim C1, counterexample: the claim counts evaluation ticks from the tick
after the dispatcher was started, so a dispatcher freshly started at tick 9
could not be evaluated before tick 10, and a dispatcher freshly started at
tick 2 with interval 3 would be evaluated on its first received tick. In the
trace asserted by TestAlertingTicker, key 2 has no running handle after tick
8, gets a fresh handle at tick 9, and is evaluated at tick 9 itself; and key
0, whose fresh interval-3 handle appears at tick 2, is not evaluated at
tick 2 but at tick 3. -/
theorem C1_counterexample :
    registryAfter testStore 8 = [(0, 3)] ∧
    (2, 1) ∈ registryAfter testStore 9 ∧
    2 ∈ evalKeysAt testStore 9 ∧
    registryAfter testStore 1 = [(1, 1)] ∧
    (0, 3) ∈ registryAfter testStore 2 ∧
    0 ∉ evalKeysAt testStore 2 ∧
    0 ∈ evalKeysAt testStore 3 := by
  decide

/-- Claim C1, amended: a definition with interval I is evaluated on tick N
iff N mod I equals 0 where N is the absolute base-tick number counted from
the start of the Ticker, independent of when the dispatcher of the
definition was started; a definition with interval 0 (or one that is paused)
is never evaluated, and every running dispatcher handle belongs to an
unpaused definition with nonzero interval. -/
theorem C1_amended_rule (s : Nat → DefStore) (N k : Nat) :
    (k ∈ evalKeysAt s N ↔
      ∃ d : AlertDef, (k, d) ∈ s N ∧ d.paused = false ∧ d.interval ≠ 0 ∧
        N % d.interval = 0) ∧
    (∀ i, (k, i) ∈ registryAfter s N →
      i ≠ 0 ∧ ∃ d : AlertDef, (k, d) ∈ s N ∧ d.paused = false ∧ d.interval = i) := by
  constructor
  · rw [mem_evalKeysAt]
    constructor
    · intro ⟨d, hmem, hrun, hmod⟩
      obtain ⟨hp, hi⟩ := shouldRun_iff.mp hrun
      exact ⟨d, hmem, hp, hi, hmod⟩
    · intro ⟨d, hmem, hp, hi, hmod⟩
      exact ⟨d, hmem, shouldRun_iff.mpr ⟨hp, hi⟩, hmod⟩
  · intro i hreg
    obtain ⟨d, hmem, hrun, hi⟩ := mem_registryAfter hreg
    obtain ⟨hp, hnz⟩ := shouldRun_iff.mp hrun
    exact ⟨hi ▸ hnz, d, hmem, hp, hi⟩

/-- Claim C1, witness: at tick 3 of the test trace, key 0 with interval 3 is
evaluated because 3 mod 3 = 0. -/
theorem C1_amended_rule_witness : 0 ∈ evalKeysAt testStore 3 :=
  (C1_amended_rule testStore 3 0).1.mpr
    ⟨⟨3, false⟩, by decide, by decide, by decide, by decide⟩

/-- Claim C2, counterexample: after the interval of key 0 is changed to 3
following tick 1, the three next ticks are 2, 3 and 4; the definition fires
on tick 3, the second of those three ticks, and not on tick 4, the third of
them, contrary to the claim. -/
theorem C2_counterexample :
    0 ∉ evalKeysAt testStore 2 ∧
    0 ∈ evalKeysAt testStore 3 ∧
    0 ∉ evalKeysAt testStore 4 := by
  decide

/-- Claim C2, amended: in the two-definition scenario (intervals 0 and 1,
base interval 1 second), after tick 1 only the interval-1 definition has
fired; after the other definition is changed to interval 3 and three more
ticks (2, 3, 4) elapse, it fires exactly once, on the second of those three
ticks — the global tick numbered 3, since scheduling is aligned to the
absolute tick count — and the change produces no retroactive evaluation and
no stop signal on any of those ticks. -/
theorem C2_amended_scenario :
    evalKeysAt testStore 1 = [1] ∧
    evalKeysAt testStore 2 = [1] ∧
    evalKeysAt testStore 3 = [0, 1] ∧
    evalKeysAt testStore 4 = [1] ∧
    stopsAt testStore 1 = [] ∧
    stopsAt testStore 2 = [] ∧
    stopsAt testStore 3 = [] ∧
    stopsAt testStore 4 = [] := by
  decide

/-- Claim C10: the evaluation decision of a tick depends only on the store
snapshot read at that tick and the absolute tick number — never on when a
dispatcher was started or restarted — and in the test trace key 0, changed
to interval 3 after tick 1 (its handle first appears at tick 2), fires on
the global ticks 3, 6 and 9 and on no other tick up to 9. -/
theorem C10_global_alignment (s s2 : Nat → DefStore) (N : Nat)
    (h : s N = s2 N) :
    evalKeysAt s N = evalKeysAt s2 N ∧
    registryAfter testStore 1 = [(1, 1)] ∧
    (0, 3) ∈ registryAfter testStore 2 ∧
    (List.range' 1 9).filter (fun M => (evalKeysAt testStore M).contains 0) =
      [3, 6, 9] := by
  refine ⟨?_, by decide, by decide, by decide⟩
  unfold evalKeysAt
  rw [h]

/-- Claim C10, witness: instantiating the snapshot-only dependence at the
test store and tick 3. -/
theorem C10_global_alignment_witness :
    evalKeysAt testStore 3 = evalKeysAt testStore 3 :=
  (C10_global_alignment testStore testStore 3 rfl).1

/-- Claim C3: once a definition is removed from the store (or paused, or its
interval set to 0) from tick M+1 on, it is never evaluated from tick M+1 on
and never stopped again after tick M+1, while a handle still active after
tick M yields a StopApplied signal at tick M+1; concretely, in the test
trace the delete of key 1 yields exactly one StopApplied, at tick 5, the
pause of key 2 yields exactly one StopApplied, at tick 8, no further
EvalApplied follows either signal for the stopped key, and key 0 keeps its
own schedule (ticks 3, 6, 9) unaffected. -/
theorem C3_stop_signals (s : Nat → DefStore) (k M : Nat)
    (habs : ∀ N, M + 1 ≤ N → ∀ d : AlertDef, (k, d) ∈ s N →
      shouldRun d = false) :
    (∀ N, M + 1 ≤ N → k ∉ evalKeysAt s N) ∧
    (∀ N, M + 1 < N → k ∉ stopsAt s N) ∧
    (∀ i, (k, i) ∈ registryAfter s M → k ∈ stopsAt s (M + 1)) ∧
    (List.range' 1 9).map (fun N => stopsAt testStore N) =
      [[], [], [], [], [1], [], [], [2], []] ∧
    (List.range' 1 9).filter (fun N => (evalKeysAt testStore N).contains 1) =
      [1, 2, 3, 4] ∧
    (List.range' 1 9).filter (fun N => (evalKeysAt testStore N).contains 2) =
      [7, 9] ∧
    (List.range' 1 9).filter (fun N => (evalKeysAt testStore N).contains 0) =
      [3, 6, 9] := by
  refine ⟨?_, ?_, ?_, by decide, by decide, by decide, by decide⟩
  · intro N hN hk
    obtain ⟨d, hmem, hrun, _⟩ := mem_evalKeysAt.mp hk
    rw [habs N hN d hmem] at hrun
    cases hrun
  · intro N hN hk
    obtain ⟨P, rfl⟩ : ∃ P, N = P + 1 := ⟨N - 1, by omega⟩
    obtain ⟨i, hreg, _⟩ := mem_stopsAt.mp hk
    obtain ⟨d, hmem, hrun, _⟩ := mem_registryAfter hreg
    rw [habs P (by omega) d hmem] at hrun
    cases hrun
  · intro i hreg
    refine mem_stopsAt.mpr ⟨i, hreg, fun hdes => ?_⟩
    obtain ⟨d, hmem, hrun, _⟩ := mem_desired.mp hdes
    rw [habs (M + 1) (Nat.le_refl _) d hmem] at hrun
    cases hrun

/-- Claim C3, witness: key 1 is deleted after tick 4 of the test trace; it is
stopped at tick 5 and not evaluated at tick 5. -/
theorem C3_stop_signals_witness :
    1 ∈ stopsAt testStore 5 ∧ 1 ∉ evalKeysAt testStore 5 := by
  have habs : ∀ N, 4 + 1 ≤ N → ∀ d : AlertDef, (1, d) ∈ testStore N →
      shouldRun d = false := by
    intro N hN d hd
    rcases Nat.lt_or_ge N 9 with h9 | h9
    · interval_cases N <;> simp [testStore] at hd
    · rw [testStore_late N h9] at hd
      simp at hd
  have h := C3_stop_signals testStore 1 4 habs
  exact ⟨h.2.2.1 1 (by decide), h.1 5 (by decide)⟩

/-- Claim C5: pausing key 2 after tick 7 stops its evaluations (its only
evaluations in the first nine ticks are at ticks 7 and 9, with exactly one
StopApplied, at tick 8), and unpausing it after tick 8 resumes its
interval-1 schedule with exactly one evaluation at tick 9 — no catch-up for
the tick skipped while paused — and with an evaluation on every tick from
tick 9 on. -/
theorem C5_pause_unpause :
    (List.range' 1 9).filter (fun N => (evalKeysAt testStore N).contains 2) =
      [7, 9] ∧
    (List.range' 1 9).map (fun N => stopsAt testStore N) =
      [[], [], [], [], [1], [], [], [2], []] ∧
    (evalKeysAt testStore 9).count 2 = 1 ∧
    (∀ N, 9 ≤ N → 2 ∈ evalKeysAt testStore N) := by
  refine ⟨by decide, by decide, by decide, ?_⟩
  intro N hN
  refine mem_evalKeysAt.mpr ⟨⟨1, false⟩, ?_, by decide, Nat.mod_one N⟩
  rw [testStore_late N hN]
  simp

/-- Claim C5, witness: key 2 is evaluated at tick 9, the tick at which the
unpause is observed. -/
theorem C5_pause_unpause_witness : 2 ∈ evalKeysAt testStore 9 :=
  C5_pause_unpause.2.2.2 9 (by decide)

/-- Claim C6: the now timestamp carried by an EvalApplied event of tick N is
exactly the tick timestamp base * N, for every execution delay of the
evaluation code — the event list does not depend on the wall-clock delay at
all — and concretely at tick 3 of the test trace both evaluated keys report
now = 3 even under a nonzero delay. -/
theorem C6_tick_timestamp (base : Nat) (d1 d2 : Nat → Nat → Nat)
    (s : Nat → DefStore) (N : Nat) :
    evalEventsAt base d1 s N = evalEventsAt base d2 s N ∧
    (∀ k t, (k, t) ∈ evalEventsAt base d1 s N → t = base * N) ∧
    evalEventsAt 1 (fun k n => 5 + k + n) testStore 3 = [(0, 3), (1, 3)] := by
  refine ⟨rfl, ?_, by decide⟩
  intro k t ht
  obtain ⟨a, _, heq⟩ := List.mem_map.mp ht
  cases heq
  rfl

/-- Claim C6, witness: key 1 at tick 3 of the test trace, under the delay
function 5 + k + n, reports now = 1 * 3. -/
theorem C6_tick_timestamp_witness : (3 : Nat) = 1 * 3 :=
  (C6_tick_timestamp 1 (fun k n => 5 + k + n) (fun _ _ => 0) testStore 3).2.1
    1 3 (by decide)

/-- Claim C4: after warming the tracker from the persisted rows and before
any tick is processed, Get on the CacheId of any persisted row returns a
state that is field-by-field equal to the state rebuilt verbatim from that
row (CacheId, Labels, State, most recent evaluation in the history, StartsAt,
EndsAt, LastEvaluationTime), provided the persisted rows carry distinct
CacheIds. -/
theorem C4_warm_get (rows : List InstanceRow) (r : InstanceRow)
    (hmem : r ∈ rows) (hnd : (rows.map rowCacheId).Nodup) :
    StateTracker.Get (WarmStateCache rows) (rowCacheId r) = warmRow r := by
  have hkeys : ((WarmStateCache rows).map (fun p => p.1)) =
      rows.map rowCacheId := by
    simp [WarmStateCache, List.map_map]
  exact Get_eq_of_mem (WarmStateCache rows) (rowCacheId r) (warmRow r)
    (hkeys ▸ hnd) (List.mem_map.mpr ⟨r, hmem, rfl⟩)

/-- Claim C4, witness: the two persisted rows of TestWarmStateCache are
rebuilt exactly as the expected cache entries of the test. -/
theorem C4_warm_get_witness :
    StateTracker.Get (WarmStateCache [testRow1, testRow2])
      "test_uid test1=testValue1" = expectedEntry1 ∧
    StateTracker.Get (WarmStateCache [testRow1, testRow2])
      "test_uid test2=testValue2" = expectedEntry2 := by
  constructor
  · have h := C4_warm_get [testRow1, testRow2] testRow1 (by decide) (by decide)
    rw [show "test_uid test1=testValue1" = rowCacheId testRow1 by decide, h]
    decide
  · have h := C4_warm_get [testRow1, testRow2] testRow2 (by decide) (by decide)
    rw [show "test_uid test2=testValue2" = rowCacheId testRow2 by decide, h]
    decide

/-- Claim C7: StartsAt is constant across any run of consecutive non-Normal
evaluations of a CacheId (a row that stays Alerting keeps its original
StartsAt), and a single update changes StartsAt only on a transition from
Normal to non-Normal, in which case it becomes the evaluation tick. -/
theorem C7_startsAt_rule (w : Nat) (a : AlertState)
    (evs : List (EvalState × Nat)) (v : EvalState) (t : Nat) :
    (a.State ≠ EvalState.Normal → (∀ e ∈ evs, e.1 ≠ EvalState.Normal) →
      (applyRuns w a evs).StartsAt = a.StartsAt) ∧
    ((updateState w a v t).StartsAt ≠ a.StartsAt →
      a.State = EvalState.Normal ∧ v ≠ EvalState.Normal ∧
        (updateState w a v t).StartsAt = t) := by
  constructor
  · intro ha hall
    exact (applyRuns_stable w evs a ha hall).1
  · intro hne
    have hs : (updateState w a v t).StartsAt =
        if a.State = EvalState.Normal ∧ v ≠ EvalState.Normal then t
        else a.StartsAt := rfl
    by_cases hc : a.State = EvalState.Normal ∧ v ≠ EvalState.Normal
    · exact ⟨hc.1, hc.2, hs.trans (if_pos hc)⟩
    · exact absurd (hs.trans (if_neg hc)) hne

/-- Claim C7, witness: an Alerting row with StartsAt = 5 updated by two
further non-Normal evaluations keeps StartsAt = 5. -/
theorem C7_startsAt_rule_witness :
    (applyRuns 60 exampleAlerting
      [(EvalState.Alerting, 10), (EvalState.Error, 11)]).StartsAt = 5 := by
  have h := (C7_startsAt_rule 60 exampleAlerting
    [(EvalState.Alerting, 10), (EvalState.Error, 11)] EvalState.Alerting 10).1
    (by decide) (by decide)
  rw [h]
  decide

/-- Claim C8: the tracker invariant — StartsAt not after LastEvaluationTime,
itself not after EndsAt, on every row, with at most one row per CacheId — is
preserved by the upsert (for a tick not earlier than any recorded last
evaluation), by Remove, and by warm-from-store on rows that respect the
window ordering and carry distinct CacheIds. -/
theorem C8_invariants (st : StateTracker) (w : Nat) (cid : String)
    (v : EvalState) (tick : Nat) (hinv : trackerInv st)
    (htick : ∀ p ∈ st, p.2.LastEvaluationTime ≤ tick) :
    trackerInv (StateTracker.Update st w cid v tick) ∧
    trackerInv (StateTracker.Remove st cid) ∧
    (∀ rows : List InstanceRow,
      (∀ r ∈ rows, r.currentStateSince ≤ r.lastEvalTime ∧
        r.lastEvalTime ≤ r.currentStateEnd) →
      (rows.map rowCacheId).Nodup → trackerInv (WarmStateCache rows)) := by
  refine ⟨?_, ?_, ?_⟩
  · unfold StateTracker.Update
    split
    · constructor
      · intro p hp
        obtain ⟨q, hq, hpq⟩ := List.mem_map.mp hp
        by_cases hc : q.1 = cid
        · rw [← hpq, if_pos hc]
          exact updateState_inv w q.2 v tick (hinv.1 q hq) (htick q hq)
        · rw [← hpq, if_neg hc]
          exact hinv.1 q hq
      · have h2 : (st.map (fun p =>
            if p.1 = cid then (p.1, updateState w p.2 v tick) else p)).map
              (fun p => p.1) = st.map (fun p => p.1) :=
          keys_map_update st (fun x => updateState w x v tick) cid
        rw [h2]
        exact hinv.2
    · rename_i hany
      constructor
      · intro p hp
        rcases List.mem_append.mp hp with hl | hr
        · exact hinv.1 p hl
        · rw [List.mem_singleton.mp hr]
          exact createState_inv cid v tick
      · rw [List.map_append]
        rw [List.nodup_append]
        refine ⟨hinv.2, List.nodup_singleton cid, ?_⟩
        intro x hx hx2
        rw [List.map_singleton, List.mem_singleton] at hx2
        obtain ⟨p, hp, hpx⟩ := List.mem_map.mp hx
        apply hany
        rw [List.any_eq_true]
        exact ⟨p, hp, by rw [beq_iff_eq]; exact hpx.trans hx2⟩
  · constructor
    · intro p hp
      exact hinv.1 p (List.mem_filter.mp hp).1
    · exact ((List.filter_sublist st).map (fun p => p.1)).nodup hinv.2
  · intro rows hrows hnd
    constructor
    · intro p hp
      obtain ⟨r, hr, hpr⟩ := List.mem_map.mp hp
      rw [← hpr]
      exact hrows r hr
    · have hkeys : ((WarmStateCache rows).map (fun p => p.1)) =
          rows.map rowCacheId := by
        simp [WarmStateCache, List.map_map]
      exact hkeys ▸ hnd

/-- Claim C8, witness: updating the one-row example tracker at tick 50 with
an Alerting verdict and a 60-second resolve window preserves the
invariant. -/
theorem C8_invariants_witness :
    trackerInv (StateTracker.Update exampleTracker 60 "cx"
      EvalState.Alerting 50) :=
  (C8_invariants exampleTracker 60 "cx" EvalState.Alerting 50
    (by constructor <;> decide) (by decide)).1

/-- Claim C9, counterexample: Get returns a bare AlertState, not a pair with
a found flag: a tracker without the key and a tracker holding the zero-value
row under that key produce identical Get results, so no component of the
returned value can indicate presence. -/
theorem C9_counterexample :
    StateTracker.Get [] "k" =
      StateTracker.Get [("k", emptyAlertState)] "k" ∧
    ("k", emptyAlertState) ∈ ([("k", emptyAlertState)] : StateTracker) ∧
    (∀ p ∈ ([] : StateTracker), p.1 ≠ "k") := by
  refine ⟨by decide, List.mem_singleton.mpr rfl, by simp⟩

/-- Claim C9, amended: Get(cacheId) returns a single AlertState — the
zero-value state when the key is absent, with no separate found flag, as the
single-value call site in TestWarmStateCache requires — and for a present
key it returns exactly the stored row, never a partially-updated one. -/
theorem C9_get_semantics (st : StateTracker) (cid : String) (a : AlertState)
    (hnd : (st.map (fun p => p.1)).Nodup) (hmem : (cid, a) ∈ st) :
    StateTracker.Get st cid = a ∧
    (∀ st2 : StateTracker, (∀ p ∈ st2, p.1 ≠ cid) →
      StateTracker.Get st2 cid = emptyAlertState) :=
  ⟨Get_eq_of_mem st cid a hnd hmem,
    fun st2 h => Get_eq_empty st2 cid h⟩

/-- Claim C9, witness: Get on the one-row example tracker returns the stored
row. -/
theorem C9_get_semantics_witness :
    StateTracker.Get exampleTracker "cx" = exampleAlerting :=
  (C9_get_semantics exampleTracker "cx" exampleAlerting
    (by decide) (by decide)).1
